import Mathlib

/-!
Verification of the couchbase-lite log-relay shim
(src/couchbase-lite-core-sys/couch_lite_log_retrans.cpp / .hpp).

The shim keeps one process-wide atomic callback pointer
`g_rust_log_callback`, a trampoline `rust_log_callback` that loads the
pointer once and, when non-null, forwards `(domain, level, fmt)` to it,
and a registration entry point `c4log_setRustCallback` that stores the
new callback and then instructs the underlying library via
`c4log_writeToCallback(level, rust_log_callback, true)`.

The embedding below models C types as follows: `C4LogDomain` is an
opaque pointer (a `Nat` tag), `C4LogLevel` an integer, the printf
format string a `String`, `va_list` an opaque payload, and
`C4LogCallbackR` (a nullable C function pointer) an `Option` of an
abstract callback identity.  Each operation returns its successor
state together with the list of observable events it performs, in
program order, so that ordering, pass-through and no-op facts can be
stated about the traces.
-/

namespace CouchLiteLogRetrans

/-- C4LogDomain is an opaque pointer tag defined by the wrapped library. -/
abbrev C4LogDomain := Nat

/-- C4LogLevel is an integral severity defined by the wrapped library. -/
abbrev C4LogLevel := Int

/-- The printf-style format string, kept as opaque text. -/
abbrev FmtString := String

/-- The va_list argument of the trampoline: an opaque payload the shim
never reads (the parameter is unnamed in the C++ source). -/
abbrev VaList := List Nat

/-- Identity of a non-null callback function value. -/
abbrev CbId := Nat

/-- C4LogCallbackR: a nullable C function pointer
`void (*)(C4LogDomain, C4LogLevel, const char *msg)`.
`none` is the null pointer. -/
abbrev C4LogCallbackR := Option CbId

/-- The fixed capture-less trampoline functions this translation unit can
hand to the underlying library.  There is exactly one: the static
`rust_log_callback`. -/
inductive TrampolineFn where
  | rustLogCallback
deriving DecidableEq, Repr

/-- The mutable state of the shim: the single static atomic
`std::atomic<C4LogCallbackR> g_rust_log_callback`. -/
structure ShimState where
  g_rust_log_callback : C4LogCallbackR
deriving DecidableEq, Repr

/-- The state at process start: the static initializer is `{nullptr}`. -/
def initState : ShimState := ⟨none⟩

/-- Observable events of one execution, in program order. -/
inductive Event where
  /-- `g_rust_log_callback.store(cb, relaxed)` performed by registration. -/
  | storeSink (cb : C4LogCallbackR)
  /-- The call into the underlying library
  `c4log_writeToCallback(level, target, flag)`. -/
  | callWriteToCallback (level : C4LogLevel) (target : TrampolineFn) (flag : Bool)
  /-- `g_rust_log_callback.load(relaxed)` performed by the trampoline,
  recording the value it returned. -/
  | loadSink (v : C4LogCallbackR)
  /-- The indirect call through a non-null callback pointer with the
  three forwarded arguments; the va_list is not part of the call. -/
  | invokeSink (cb : CbId) (d : C4LogDomain) (l : C4LogLevel) (fmt : FmtString)
deriving DecidableEq, Repr

/-- The sink invocations contained in a trace: each carries the callback
identity and exactly the `(domain, level, fmt)` triple. -/
def sinkInvocations (evs : List Event) : List (CbId × C4LogDomain × C4LogLevel × FmtString) :=
  evs.filterMap fun e =>
    match e with
    | Event.invokeSink cb d l fmt => some (cb, d, l, fmt)
    | _ => none

/-- The values returned by the loads of `g_rust_log_callback` in a trace. -/
def loadsOf (evs : List Event) : List C4LogCallbackR :=
  evs.filterMap fun e =>
    match e with
    | Event.loadSink v => some v
    | _ => none

/-- static void rust_log_callback(C4LogDomain d, C4LogLevel l,
const char *fmt, va_list): loads `g_rust_log_callback` exactly once into
a local, and if the loaded value is non-null calls it with `(d, l, fmt)`;
the va_list parameter is unnamed and never used. -/
def rust_log_callback (s : ShimState) (d : C4LogDomain) (l : C4LogLevel)
    (fmt : FmtString) (_args : VaList) : ShimState × List Event :=
  match s.g_rust_log_callback with
  | some cb => (s, [Event.loadSink (some cb), Event.invokeSink cb d l fmt])
  | none => (s, [Event.loadSink none])

/-- void c4log_setRustCallback(C4LogLevel level, C4LogCallbackR callback)
noexcept: stores `callback` into `g_rust_log_callback` (full replacement),
then calls `c4log_writeToCallback(level, rust_log_callback, true)`. -/
def c4log_setRustCallback (level : C4LogLevel) (callback : C4LogCallbackR)
    (s : ShimState) : ShimState × List Event :=
  let _ := s
  ((⟨callback⟩ : ShimState),
    [Event.storeSink callback,
     Event.callWriteToCallback level TrampolineFn.rustLogCallback true])

/-- Modelled from the spec: `c4log_writeToCallback` belongs to the
wrapped library (couchbase-lite-core), which is not part of this
repository fragment; per the spec it installs the given trampoline as
the library's log destination (replace semantics), may conceivably fail
internally (leaving the prior destination), and returns void either
way, so its outcome is invisible to the caller. -/
structure LibRegState where
  registeredLevel : Option C4LogLevel
  registeredTarget : Option TrampolineFn
deriving DecidableEq, Repr

/-- Modelled from the spec: the behaviour of the external registration
call for a given internal outcome `succeeds`; the void return value is
`Unit` regardless of the outcome. -/
def c4log_writeToCallback (succeeds : Bool) (level : C4LogLevel)
    (target : TrampolineFn) (_flag : Bool) (lib : LibRegState) :
    LibRegState × Unit :=
  if succeeds then ((⟨some level, some target⟩ : LibRegState), ()) else (lib, ())

/-- c4log_setRustCallback together with the (spec-modelled) library
registration state, threaded with the library-internal outcome
`succeeds` of the `c4log_writeToCallback` call.  The components are:
the shim state after the call, the library state after the call, and
the value returned to the caller (void). -/
def c4log_setRustCallback_full (succeeds : Bool) (level : C4LogLevel)
    (callback : C4LogCallbackR) (s : ShimState) (lib : LibRegState) :
    ShimState × LibRegState × Unit :=
  let _ := s
  let r := c4log_writeToCallback succeeds level TrampolineFn.rustLogCallback true lib
  ((⟨callback⟩ : ShimState), r.1, r.2)

/-- A sequence of c4log_setRustCallback calls executed in order on one
thread, returning the final shim state. -/
def runSets : ShimState → List (C4LogLevel × C4LogCallbackR) → ShimState
  | s, [] => s
  | s, c :: cs => runSets (c4log_setRustCallback c.1 c.2 s).1 cs

/-- Arguments of one trampoline invocation. -/
abbrev TrampArgs := C4LogDomain × C4LogLevel × FmtString × VaList

/-- A sequence of trampoline invocations executed in order, returning the
final shim state and the concatenated trace. -/
def runTramps : ShimState → List TrampArgs → ShimState × List Event
  | s, [] => (s, [])
  | s, a :: rest =>
    let r := rust_log_callback s a.1 a.2.1 a.2.2.1 a.2.2.2
    let next := runTramps r.1 rest
    (next.1, r.2 ++ next.2)

/-- One step taken by some thread: either a registration call or a
trampoline invocation.  A list of these is an arbitrary interleaving of
the threads' operations; each operation touches the shared sink in a
single atomic access, so interleaving at this granularity covers all
interleavings of the sink accesses. -/
inductive ThreadOp where
  | setCb (level : C4LogLevel) (cb : C4LogCallbackR)
  | tramp (d : C4LogDomain) (l : C4LogLevel) (fmt : FmtString) (args : VaList)
deriving DecidableEq, Repr

/-- Execute an interleaving of thread operations, collecting the trace. -/
def runOps : ShimState → List ThreadOp → ShimState × List Event
  | s, [] => (s, [])
  | s, op :: rest =>
    let r :=
      match op with
      | ThreadOp.setCb level cb => c4log_setRustCallback level cb s
      | ThreadOp.tramp d l fmt args => rust_log_callback s d l fmt args
    let next := runOps r.1 rest
    (next.1, r.2 ++ next.2)

/-- The trampoline with a concurrent writer made explicit: another
thread stores `w` into `g_rust_log_callback` after this invocation's
single load (hence between the null check and the indirect call).
Because the source loads the global exactly once into a local and both
the check and the call use that local, the interfering store lands in
the global only. -/
def rust_log_callback_raced (s : ShimState) (w : C4LogCallbackR)
    (d : C4LogDomain) (l : C4LogLevel) (fmt : FmtString) (_args : VaList) :
    ShimState × List Event :=
  match s.g_rust_log_callback with
  | some cb =>
    ((⟨w⟩ : ShimState),
      [Event.loadSink (some cb), Event.storeSink w, Event.invokeSink cb d l fmt])
  | none => ((⟨w⟩ : ShimState), [Event.loadSink none, Event.storeSink w])

/-! Helper lemmas (shared, not tied to a single claim). -/

theorem rust_log_callback_eq_some (s : ShimState) (cb : CbId) (d : C4LogDomain)
    (l : C4LogLevel) (fmt : FmtString) (args : VaList)
    (h : s.g_rust_log_callback = some cb) :
    rust_log_callback s d l fmt args =
      (s, [Event.loadSink (some cb), Event.invokeSink cb d l fmt]) := by
  unfold rust_log_callback
  rw [h]

theorem rust_log_callback_eq_none (s : ShimState) (d : C4LogDomain)
    (l : C4LogLevel) (fmt : FmtString) (args : VaList)
    (h : s.g_rust_log_callback = none) :
    rust_log_callback s d l fmt args = (s, [Event.loadSink none]) := by
  unfold rust_log_callback
  rw [h]

theorem rust_log_callback_state (s : ShimState) (d : C4LogDomain)
    (l : C4LogLevel) (fmt : FmtString) (args : VaList) :
    (rust_log_callback s d l fmt args).1 = s := by
  cases hg : s.g_rust_log_callback with
  | some cb => rw [rust_log_callback_eq_some s cb d l fmt args hg]
  | none => rw [rust_log_callback_eq_none s d l fmt args hg]

theorem loadsOf_rust_log_callback (s : ShimState) (d : C4LogDomain)
    (l : C4LogLevel) (fmt : FmtString) (args : VaList) :
    loadsOf ((rust_log_callback s d l fmt args).2) = [s.g_rust_log_callback] := by
  cases hg : s.g_rust_log_callback with
  | some cb => rw [rust_log_callback_eq_some s cb d l fmt args hg]; rfl
  | none => rw [rust_log_callback_eq_none s d l fmt args hg]; rfl

theorem runTramps_state (invs : List TrampArgs) :
    ∀ s : ShimState, (runTramps s invs).1 = s := by
  induction invs with
  | nil => intro s; rfl
  | cons a rest ih =>
    intro s
    show (runTramps (rust_log_callback s a.1 a.2.1 a.2.2.1 a.2.2.2).1 rest).1 = s
    rw [rust_log_callback_state, ih]

theorem runTramps_none_no_invocations (invs : List TrampArgs) :
    sinkInvocations ((runTramps (⟨none⟩ : ShimState) invs).2) = [] := by
  induction invs with
  | nil => rfl
  | cons a rest ih =>
    show sinkInvocations
      ((rust_log_callback ⟨none⟩ a.1 a.2.1 a.2.2.1 a.2.2.2).2 ++
        (runTramps (rust_log_callback ⟨none⟩ a.1 a.2.1 a.2.2.1 a.2.2.2).1 rest).2) = []
    rw [rust_log_callback_eq_none ⟨none⟩ a.1 a.2.1 a.2.2.1 a.2.2.2 rfl]
    simpa [sinkInvocations] using ih

theorem runSets_take_get (calls : List (C4LogLevel × C4LogCallbackR)) :
    ∀ (i : Fin calls.length) (s0 : ShimState),
      (runSets s0 (calls.take (i.val + 1))).g_rust_log_callback = (calls.get i).2 := by
  induction calls with
  | nil => intro i; exact i.elim0
  | cons c cs ih =>
    intro i s0
    cases i using Fin.cases with
    | zero => rfl
    | succ j => exact ih j ⟨c.2⟩

theorem runOps_cons_set (s : ShimState) (level : C4LogLevel) (cb : C4LogCallbackR)
    (rest : List ThreadOp) :
    runOps s (ThreadOp.setCb level cb :: rest) =
      ((runOps (⟨cb⟩ : ShimState) rest).1,
        [Event.storeSink cb,
         Event.callWriteToCallback level TrampolineFn.rustLogCallback true] ++
          (runOps (⟨cb⟩ : ShimState) rest).2) := rfl

theorem runOps_cons_tramp (s : ShimState) (d : C4LogDomain) (l : C4LogLevel)
    (fmt : FmtString) (args : VaList) (rest : List ThreadOp) :
    runOps s (ThreadOp.tramp d l fmt args :: rest) =
      ((runOps (rust_log_callback s d l fmt args).1 rest).1,
        (rust_log_callback s d l fmt args).2 ++
          (runOps (rust_log_callback s d l fmt args).1 rest).2) := rfl

theorem runOps_load_provenance (ops : List ThreadOp) :
    ∀ (s : ShimState) (v : C4LogCallbackR),
      Event.loadSink v ∈ (runOps s ops).2 →
      v = s.g_rust_log_callback ∨ ∃ level, ThreadOp.setCb level v ∈ ops := by
  induction ops with
  | nil =>
    intro s v h
    simp [runOps] at h
  | cons op rest ih =>
    intro s v h
    cases op with
    | setCb level cb =>
      rw [runOps_cons_set] at h
      simp only [List.cons_append, List.nil_append, List.mem_cons, List.mem_append] at h
      rcases h with h | h | h
      · exact absurd h (by simp)
      · exact absurd h (by simp)
      · rcases ih ⟨cb⟩ v h with h1 | ⟨lvl, hm⟩
        · refine Or.inr ⟨level, ?_⟩
          have : v = cb := h1
          rw [this]
          exact List.mem_cons_self _ _
        · exact Or.inr ⟨lvl, List.mem_cons_of_mem _ hm⟩
    | tramp d l fmt args =>
      rw [runOps_cons_tramp] at h
      rw [rust_log_callback_state] at h
      cases hg : s.g_rust_log_callback with
      | some cb =>
        rw [rust_log_callback_eq_some s cb d l fmt args hg] at h
        simp only [List.cons_append, List.nil_append, List.mem_cons, List.mem_append] at h
        rcases h with h | h | h
        · exact Or.inl ((Event.loadSink.injEq _ _).mp h)
        · exact absurd h (by simp)
        · rcases ih s v h with h1 | ⟨lvl, hm⟩
          · exact Or.inl (h1.trans hg)
          · exact Or.inr ⟨lvl, List.mem_cons_of_mem _ hm⟩
      | none =>
        rw [rust_log_callback_eq_none s d l fmt args hg] at h
        simp only [List.cons_append, List.nil_append, List.mem_cons, List.mem_append] at h
        rcases h with h | h
        · exact Or.inl ((Event.loadSink.injEq _ _).mp h)
        · rcases ih s v h with h1 | ⟨lvl, hm⟩
          · exact Or.inl (h1.trans hg)
          · exact Or.inr ⟨lvl, List.mem_cons_of_mem _ hm⟩

theorem runOps_invoke_provenance (ops : List ThreadOp) :
    ∀ (s : ShimState) (cb : CbId) (d : C4LogDomain) (l : C4LogLevel) (fmt : FmtString),
      Event.invokeSink cb d l fmt ∈ (runOps s ops).2 →
      ∃ args, ThreadOp.tramp d l fmt args ∈ ops := by
  induction ops with
  | nil =>
    intro s cb d l fmt h
    simp [runOps] at h
  | cons op rest ih =>
    intro s cb d l fmt h
    cases op with
    | setCb level cb2 =>
      rw [runOps_cons_set] at h
      simp only [List.cons_append, List.nil_append, List.mem_cons, List.mem_append] at h
      rcases h with h | h | h
      · exact absurd h (by simp)
      · exact absurd h (by simp)
      · rcases ih ⟨cb2⟩ cb d l fmt h with ⟨args, hm⟩
        exact ⟨args, List.mem_cons_of_mem _ hm⟩
    | tramp d0 l0 fmt0 args0 =>
      rw [runOps_cons_tramp] at h
      rw [rust_log_callback_state] at h
      cases hg : s.g_rust_log_callback with
      | some cb0 =>
        rw [rust_log_callback_eq_some s cb0 d0 l0 fmt0 args0 hg] at h
        simp only [List.cons_append, List.nil_append, List.mem_cons, List.mem_append] at h
        rcases h with h | h | h
        · exact absurd h (by simp)
        · obtain ⟨-, hd, hl, hf⟩ := (Event.invokeSink.injEq _ _ _ _ _ _ _ _).mp h
          refine ⟨args0, ?_⟩
          rw [hd, hl, hf]
          exact List.mem_cons_self _ _
        · rcases ih s cb d l fmt h with ⟨args, hm⟩
          exact ⟨args, List.mem_cons_of_mem _ hm⟩
      | none =>
        rw [rust_log_callback_eq_none s d0 l0 fmt0 args0 hg] at h
        simp only [List.cons_append, List.nil_append, List.mem_cons, List.mem_append] at h
        rcases h with h | h
        · exact absurd h (by simp)
        · rcases ih s cb d l fmt h with ⟨args, hm⟩
          exact ⟨args, List.mem_cons_of_mem _ hm⟩

/-! Claim theorems. -/

/-- C1: for every sequence of c4log_setRustCallback calls executed
without concurrent writers, the sink value that rust_log_callback loads
immediately after each call of the sequence equals the callback argument
passed in that call (last registration wins, full replacement). -/
theorem last_registration_wins (calls : List (C4LogLevel × C4LogCallbackR))
    (i : Fin calls.length) (s0 : ShimState) (d : C4LogDomain) (l : C4LogLevel)
    (fmt : FmtString) (args : VaList) :
    loadsOf ((rust_log_callback (runSets s0 (calls.take (i.val + 1)))
        d l fmt args).2) = [(calls.get i).2] := by
  rw [loadsOf_rust_log_callback, runSets_take_get calls i s0]

/-- Witness for C1 at a concrete two-call sequence: after the second
call the trampoline loads the second callback. -/
theorem last_registration_wins_witness :
    loadsOf ((rust_log_callback
        (runSets initState ([((1 : Int), some 4), ((2 : Int), some 9)].take (1 + 1)))
        0 2 "w" []).2) = [some 9] :=
  last_registration_wins [((1 : Int), some 4), ((2 : Int), some 9)]
    ⟨1, by decide⟩ initState 0 2 "w" []

/-- C2: after c4log_setRustCallback is called with the null callback,
every subsequent sequence of trampoline invocations performs no sink
invocation at all (no previously registered callback is ever called),
and leaves the sink unchanged. -/
theorem set_null_silences_relay (level : C4LogLevel) (s : ShimState)
    (invs : List TrampArgs) :
    sinkInvocations ((runTramps (c4log_setRustCallback level none s).1 invs).2) = [] ∧
    (runTramps (c4log_setRustCallback level none s).1 invs).1 =
      (c4log_setRustCallback level none s).1 := by
  have h1 : (c4log_setRustCallback level none s).1 = (⟨none⟩ : ShimState) := rfl
  rw [h1]
  exact ⟨runTramps_none_no_invocations invs, runTramps_state invs ⟨none⟩⟩

/-- C3: when the current sink is non-null, one trampoline invocation
invokes the sink exactly once with exactly the (domain, level, fmt)
triple unchanged, and the variadic arguments are not forwarded: the
whole result is independent of the va_list. -/
theorem trampoline_forwards_triple_once (s : ShimState) (cb : CbId)
    (d : C4LogDomain) (l : C4LogLevel) (fmt : FmtString) (args args2 : VaList)
    (h : s.g_rust_log_callback = some cb) :
    sinkInvocations ((rust_log_callback s d l fmt args).2) = [(cb, d, l, fmt)] ∧
    rust_log_callback s d l fmt args2 = rust_log_callback s d l fmt args := by
  constructor
  · rw [rust_log_callback_eq_some s cb d l fmt args h]
    rfl
  · rw [rust_log_callback_eq_some s cb d l fmt args h,
        rust_log_callback_eq_some s cb d l fmt args2 h]

/-- Witness for C3 at a concrete non-null sink. -/
theorem trampoline_forwards_triple_once_witness :
    sinkInvocations ((rust_log_callback ⟨some 3⟩ 7 2 "fmt" [1]).2) = [(3, 7, 2, "fmt")] ∧
    rust_log_callback ⟨some 3⟩ 7 2 "fmt" [5, 5] = rust_log_callback ⟨some 3⟩ 7 2 "fmt" [1] :=
  trampoline_forwards_triple_once ⟨some 3⟩ 3 7 2 "fmt" [1] [5, 5] rfl

/-- C4: if no callback was ever registered, the initial sink is null and
any trampoline invocation is a safe no-op: it only performs the load,
invokes nothing (never dereferencing a null function pointer), and
leaves the state unchanged. -/
theorem trampoline_unregistered_safe_noop (d : C4LogDomain) (l : C4LogLevel)
    (fmt : FmtString) (args : VaList) :
    initState.g_rust_log_callback = none ∧
    rust_log_callback initState d l fmt args = (initState, [Event.loadSink none]) ∧
    sinkInvocations ((rust_log_callback initState d l fmt args).2) = [] :=
  ⟨rfl, rfl, rfl⟩

/-- C5: c4log_setRustCallback first stores the callback into the sink
and then calls c4log_writeToCallback with the level unmodified, the
fixed trampoline rust_log_callback, and the flag true — in that order,
and the store is a full replacement. -/
theorem setRustCallback_store_then_register (level : C4LogLevel)
    (cb : C4LogCallbackR) (s : ShimState) :
    (c4log_setRustCallback level cb s).2 =
      [Event.storeSink cb,
       Event.callWriteToCallback level TrampolineFn.rustLogCallback true] ∧
    (c4log_setRustCallback level cb s).1.g_rust_log_callback = cb :=
  ⟨rfl, rfl⟩

/-- C6: the registration call signals no error: the value returned to
the caller is the void value, and both the returned value and the
resulting shim state are identical whether the underlying library's
registration succeeds or fails — the outcome is silently swallowed. -/
theorem setRustCallback_no_observable_failure (ok1 ok2 : Bool)
    (level : C4LogLevel) (cb : C4LogCallbackR) (s : ShimState) (lib : LibRegState) :
    (c4log_setRustCallback_full ok1 level cb s lib).2.2 = () ∧
    (c4log_setRustCallback_full ok1 level cb s lib).1 =
      (c4log_setRustCallback_full ok2 level cb s lib).1 ∧
    (c4log_setRustCallback_full ok1 level cb s lib).2.2 =
      (c4log_setRustCallback_full ok2 level cb s lib).2.2 :=
  ⟨rfl, rfl, rfl⟩

/-- C7: in every interleaving of registration calls and trampoline
invocations, every load of the sink returns either the initially
installed value or a value installed whole by some registration in the
interleaving (never a torn mixture), and every delivered
(domain, level, fmt) triple is one actually passed to some trampoline
invocation of the interleaving. -/
theorem atomic_sink_no_torn_reads :
    (∀ (s : ShimState) (ops : List ThreadOp) (v : C4LogCallbackR),
      Event.loadSink v ∈ (runOps s ops).2 →
      v = s.g_rust_log_callback ∨ ∃ level, ThreadOp.setCb level v ∈ ops) ∧
    (∀ (s : ShimState) (ops : List ThreadOp) (cb : CbId) (d : C4LogDomain)
        (l : C4LogLevel) (fmt : FmtString),
      Event.invokeSink cb d l fmt ∈ (runOps s ops).2 →
      ∃ args, ThreadOp.tramp d l fmt args ∈ ops) :=
  ⟨fun s ops v h => runOps_load_provenance ops s v h,
   fun s ops cb d l fmt h => runOps_invoke_provenance ops s cb d l fmt h⟩

/-- Witness for C7: a concrete interleaving of one registration and one
trampoline invocation, with both provenance conclusions discharged. -/
theorem atomic_sink_no_torn_reads_witness :
    ((some 7 : C4LogCallbackR) = (⟨some 5⟩ : ShimState).g_rust_log_callback ∨
      ∃ level, ThreadOp.setCb level (some 7) ∈
        [ThreadOp.setCb 1 (some 7), ThreadOp.tramp 0 1 "x" []]) ∧
    (∃ args, ThreadOp.tramp 0 1 "x" args ∈
      [ThreadOp.setCb 1 (some 7), ThreadOp.tramp 0 1 "x" []]) :=
  ⟨atomic_sink_no_torn_reads.1 ⟨some 5⟩
      [ThreadOp.setCb 1 (some 7), ThreadOp.tramp 0 1 "x" []] (some 7) (by decide),
   atomic_sink_no_torn_reads.2 ⟨some 5⟩
      [ThreadOp.setCb 1 (some 7), ThreadOp.tramp 0 1 "x" []] 7 0 1 "x" (by decide)⟩

/-- C8: the sink is mutated only by registration, and each mutation is a
full replacement of the single reference; a trampoline invocation — and
any sequence of them — leaves the sink unchanged. -/
theorem sink_mutated_only_by_registration (s : ShimState) (d : C4LogDomain)
    (l : C4LogLevel) (fmt : FmtString) (args : VaList) (level : C4LogLevel)
    (cb : C4LogCallbackR) (invs : List TrampArgs) :
    (rust_log_callback s d l fmt args).1 = s ∧
    (c4log_setRustCallback level cb s).1 = (⟨cb⟩ : ShimState) ∧
    (runTramps s invs).1 = s :=
  ⟨rust_log_callback_state s d l fmt args, rfl, runTramps_state invs s⟩

/-- C9: within one trampoline invocation the sink is loaded exactly
once, and the function invoked is exactly that loaded value: even when a
concurrent writer replaces the global sink between the null check and
the indirect call (rust_log_callback_raced, which ends with the global
holding the interfering value), the invocations performed are identical
to the un-raced run, so a null pointer is never invoked. -/
theorem single_load_guards_call (s : ShimState) (w : C4LogCallbackR)
    (d : C4LogDomain) (l : C4LogLevel) (fmt : FmtString) (args : VaList) :
    loadsOf ((rust_log_callback s d l fmt args).2) = [s.g_rust_log_callback] ∧
    sinkInvocations ((rust_log_callback_raced s w d l fmt args).2) =
      sinkInvocations ((rust_log_callback s d l fmt args).2) ∧
    (rust_log_callback_raced s w d l fmt args).1 = (⟨w⟩ : ShimState) := by
  refine ⟨loadsOf_rust_log_callback s d l fmt args, ?_, ?_⟩ <;>
    cases hg : s.g_rust_log_callback <;>
      simp [rust_log_callback, rust_log_callback_raced, sinkInvocations, hg]

/-- C10: c4log_setRustCallback calls c4log_writeToCallback
unconditionally, for every callback value including null; registering
the null callback leaves the trampoline installed in the (spec-modelled)
library, and each event it then delivers is dropped by the trampoline
after the load. -/
theorem null_callback_keeps_trampoline_registered (level : C4LogLevel)
    (cb : C4LogCallbackR) (s : ShimState) (lib : LibRegState) (d : C4LogDomain)
    (l : C4LogLevel) (fmt : FmtString) (args : VaList) :
    Event.callWriteToCallback level TrampolineFn.rustLogCallback true ∈
      (c4log_setRustCallback level cb s).2 ∧
    (c4log_setRustCallback_full true level none s lib).2.1.registeredTarget =
      some TrampolineFn.rustLogCallback ∧
    (rust_log_callback (c4log_setRustCallback level none s).1 d l fmt args).2 =
      [Event.loadSink none] := by
  refine ⟨?_, rfl, rfl⟩
  simp [c4log_setRustCallback]

end CouchLiteLogRetrans
